import Mathlib

/-!
Shallow embedding of the `FileUploader` large-file-upload SDK
(`src/unnamed/part_001`, JS class at lines 301-817) together with proofs
about its per-file state machine, chunk scheduler, retry executor and
orchestrator-level concurrency control.
-/

namespace LargeFileUpload



/-- The status field of a `FileItem` (src line 351 / 74). -/
inductive Status where
  | pending
  | checking
  | uploading
  | merging
  | success
  | error
  | cancelled
deriving DecidableEq

/-- The browser `File` handle: name, byte length and content bytes. -/
structure FileSrc where
  name : String
  size : Nat
  bytes : List Nat
deriving DecidableEq

/-- One entry of `this.files` (src lines 348-357 and the `FileItem`
interface at lines 59-110). -/
structure FileItem where
  id : Nat
  file : FileSrc
  status : Status
  progress : Nat
  name : String
  size : Nat
  uploadedChunks : List Nat
  totalChunks : Nat
  md5 : Option String := none
  error : Option String := none
deriving DecidableEq

/-- `Math.ceil(size / chunkSize)` on naturals (src line 356). -/
def ceilDiv (a b : Nat) : Nat := (a + b - 1) / b

/-- `Math.round((k / n) * 100)` on naturals, rounding half up as JS
`Math.round` does for the nonnegative values arising here
(src line 532). -/
def roundPct (k n : Nat) : Nat := (200 * k + n) / (2 * n)

/-- The object `addFiles` builds for each input file (src lines 348-357). -/
def addFileItem (fid : Nat) (f : FileSrc) (chunkSize : Nat) : FileItem :=
  { id := fid
    file := f
    status := Status.pending
    progress := 0
    name := f.name
    size := f.size
    uploadedChunks := []
    totalChunks := ceilDiv f.size chunkSize }

/-- The server response of the existence/resume check
(src lines 115-131). -/
structure CheckResp where
  fileExists : Bool
  path : Option String
  uploadedChunks : List Nat
deriving DecidableEq

/-- `Array.from({length: totalChunks}, (_, i) => i).filter(i =>
!checkResult.uploadedChunks.includes(i))` (src lines 447-448). -/
def chunksToUploadOf (totalChunks : Nat) (uploaded : List Nat) : List Nat :=
  (List.range totalChunks).filter (fun i => !(uploaded.contains i))

/-- A network operation issued by `processFile` and its callees. -/
inductive NetOp where
  | checkOp
  | chunkOp (index : Nat)
  | mergeOp (totalChunks : Nat)
deriving DecidableEq

/-- The body of the merge response (src lines 136-147). -/
structure MergeBody where
  success : Bool
  path : Option String
deriving DecidableEq

/-- Outcome of the merge `fetch` (src lines 584-589): an HTTP response
with its `ok` flag, status code and parsed body, or a rejection with
`AbortError`. -/
inductive MergeOutcome where
  | resp (ok : Bool) (statusCode : Nat) (body : MergeBody)
  | abortErr
deriving DecidableEq

/-- `mergeFile` (src lines 583-596): throws `HTTP error! status: s` when
the response is not ok, otherwise returns the parsed body.  The body's
`success` flag is not inspected. -/
def mergeFileCall (o : MergeOutcome) : Except String MergeBody :=
  match o with
  | MergeOutcome.resp true _ body => Except.ok body
  | MergeOutcome.resp false code _ =>
      Except.error ("HTTP error! status: " ++ toString code)
  | MergeOutcome.abortErr => Except.error "AbortError"

/-- Result of running the merge step of `processFile`. -/
structure MergeRun where
  item : FileItem
  ops : List NetOp
  notifs : List FileItem
deriving DecidableEq

/-- The merge step of `processFile` (src lines 476-481 together with the
catch block at 482-494, and identically lines 454-459 on the merge-only
path): one merge call; on a resolved response the task becomes `success`
with `progress = 100` regardless of the body's `success` flag; on a
thrown HTTP error the task becomes `error` with the thrown message; on
`AbortError` it becomes `cancelled`. -/
def mergePhase (it : FileItem) (o : MergeOutcome) : MergeRun :=
  match o with
  | MergeOutcome.resp true _ _ =>
      let fin := { it with status := Status.success, progress := 100 }
      ⟨fin, [NetOp.mergeOp it.totalChunks], [fin]⟩
  | MergeOutcome.resp false code _ =>
      let fin := { it with status := Status.error,
                           error := some ("HTTP error! status: " ++ toString code) }
      ⟨fin, [NetOp.mergeOp it.totalChunks], [fin]⟩
  | MergeOutcome.abortErr =>
      let fin := { it with status := Status.cancelled }
      ⟨fin, [NetOp.mergeOp it.totalChunks], [fin]⟩

/-- Where `processFile` goes after the check response arrives. -/
inductive Phase1 where
  | finished (item : FileItem)
  | needMerge (item : FileItem)
  | needUpload (item : FileItem) (chunksToUpload : List Nat)
deriving DecidableEq

/-- Result of the checking phase: the continuation and the status
notifications emitted so far. -/
structure CheckRun where
  out : Phase1
  notifs : List FileItem
deriving DecidableEq

/-- The checking phase of `processFile` (src lines 426-464): set status
`checking` and notify, record the md5, issue the check; on
`exists: true` finish as `success` with `progress = 100` (instant
transfer, src 437-444); otherwise install the server-reported
`uploadedChunks` (src 450) without recomputing `progress`, and either
proceed straight to merge (src 452-460) or enter `uploading`
(src 463-464). -/
def checkPhase (item0 : FileItem) (md5v : String) (resp : CheckResp) : CheckRun :=
  let item1 := { item0 with status := Status.checking }
  let item2 := { item1 with md5 := some md5v }
  if resp.fileExists then
    let fin := { item2 with status := Status.success, progress := 100 }
    ⟨Phase1.finished fin, [item1, fin]⟩
  else
    let ctu := chunksToUploadOf item2.totalChunks resp.uploadedChunks
    let item3 := { item2 with uploadedChunks := resp.uploadedChunks }
    if ctu.isEmpty then
      ⟨Phase1.needMerge item3, [item1]⟩
    else
      let item4 := { item3 with status := Status.uploading }
      ⟨Phase1.needUpload item4 ctu, [item1, item4]⟩

/-- The complete network-operation trace of a `processFile` run whose
later phases issue `rest`: the `finished` branch returns at once
(src line 443), so nothing follows the check call there. -/
def phase1Ops : Phase1 → List NetOp → List NetOp
  | Phase1.finished _, _ => [NetOp.checkOp]
  | Phase1.needMerge _, rest => NetOp.checkOp :: rest
  | Phase1.needUpload _ _, rest => NetOp.checkOp :: rest

/-- An error reaching the catch block of `processFile`. -/
inductive UErr where
  | abortError
  | jsError (msg : String)
deriving DecidableEq

/-- The catch block of `processFile` (src lines 482-494): on
`AbortError` set status `cancelled` and notify; on any other error set
status `error`, record the message, and notify.  It runs regardless of
the task's current status. -/
def catchBlock (it : FileItem) (e : UErr) : FileItem × List FileItem :=
  match e with
  | UErr.abortError =>
      let fin := { it with status := Status.cancelled }
      (fin, [fin])
  | UErr.jsError m =>
      let fin := { it with status := Status.error, error := some m }
      (fin, [fin])

/-- The orchestrator-owned mutable state read by `cancelUpload`
(src lines 335-340): the task list, the pending queue (by id) and the
registered abort controllers (by id). -/
structure UploaderState where
  files : List FileItem
  uploadQueue : List Nat
  controllers : List Nat
deriving DecidableEq

/-- Result of a `cancelUpload` call: the new state, the notifications
emitted, and whether an abort controller was triggered. -/
structure CancelRun where
  state : UploaderState
  notifs : List FileItem
  abortFired : Bool
deriving DecidableEq

/-- Set the status of the task with the given id (the in-place mutation
`fileItem.status = 'cancelled'` on the found list element). -/
def setStatusById (fs : List FileItem) (fid : Nat) (st : Status) : List FileItem :=
  fs.map (fun x => if x.id == fid then { x with status := st } else x)

/-- `cancelUpload` (src lines 371-399): unknown id is a warning only; a
`pending` task is removed from the queue and cancelled; an in-flight
task (`checking`/`uploading`/`merging`) has its controller aborted and
removed and is cancelled; a terminal task falls through both branches
untouched, with no notification. -/
def cancelUpload (st : UploaderState) (fid : Nat) : CancelRun :=
  match st.files.find? (fun x => x.id == fid) with
  | none => ⟨st, [], false⟩
  | some it =>
    if it.status = Status.pending then
      ⟨⟨setStatusById st.files fid Status.cancelled,
        st.uploadQueue.filter (fun i => i != fid), st.controllers⟩,
       [{ it with status := Status.cancelled }], false⟩
    else if it.status = Status.checking ∨ it.status = Status.uploading ∨
            it.status = Status.merging then
      ⟨⟨setStatusById st.files fid Status.cancelled, st.uploadQueue,
        st.controllers.filter (fun i => i != fid)⟩,
       [{ it with status := Status.cancelled }], st.controllers.contains fid⟩
    else ⟨st, [], false⟩

/-- `calculateMD5Fallback` (src lines 756-765): resolves
`'md5-' + Date.now() + '-' + file.name`; the file's bytes are never
read. -/
def calculateMD5Fallback (nowMs : Nat) (f : FileSrc) : String :=
  "md5-" ++ toString nowMs ++ "-" ++ f.name

/-- Two distinct files holding identical bytes, used to evaluate the
fallback digest. -/
def c6FileA : FileSrc := ⟨"a.txt", 3, [10, 20, 30]⟩

/-- Same bytes as `c6FileA` under a different name. -/
def c6FileB : FileSrc := ⟨"b.txt", 3, [10, 20, 30]⟩

/-- A task sitting in the `merging` state with every chunk uploaded. -/
def c7Item : FileItem :=
  { id := 1
    file := ⟨"a.bin", 4, [1, 2, 3, 4]⟩
    status := Status.merging
    progress := 100
    name := "a.bin"
    size := 4
    uploadedChunks := [0, 1]
    totalChunks := 2
    md5 := some "m"
    error := none }

/-- An already-successful task, used to evaluate
`cancelUpload_terminal_noop`. -/
def c8DoneItem : FileItem :=
  { id := 7, file := ⟨"d.bin", 2, [1, 2]⟩, status := Status.success,
    progress := 100, name := "d.bin", size := 2, uploadedChunks := [0],
    totalChunks := 1, md5 := some "m", error := none }

/-- The uploader state holding just `c8DoneItem`. -/
def c8DoneState : UploaderState := ⟨[c8DoneItem], [], []⟩

/-- The uploader state holding one in-flight (`checking`) task. -/
def c8St : UploaderState :=
  ⟨[{ id := 7, file := ⟨"c.bin", 2, [1, 2]⟩, status := Status.checking,
      progress := 0, name := "c.bin", size := 2, uploadedChunks := [],
      totalChunks := 1, md5 := none, error := none }], [], [7]⟩

/-- The same task after `cancelUpload` has settled it to `cancelled`. -/
def c8ItemCancelled : FileItem :=
  { id := 7, file := ⟨"c.bin", 2, [1, 2]⟩, status := Status.cancelled,
    progress := 0, name := "c.bin", size := 2, uploadedChunks := [],
    totalChunks := 1, md5 := none, error := none }

/-- The fresh task of the C3 resume scenario: three chunks in total. -/
def c3Item : FileItem := addFileItem 9 ⟨"r.bin", 5, [1, 2, 3, 4, 5]⟩ 2

/-- Outcome of one `fetch` attempt inside `uploadWithRetry`
(src line 615): a resolved response with its `ok` flag and status code,
a network-level rejection with a message, or a rejection with
`AbortError`. -/
inductive FetchOutcome where
  | resp (ok : Bool) (statusCode : Nat)
  | netErr (msg : String)
  | abortReject
deriving DecidableEq

/-- An error `uploadWithRetry` can raise. -/
inductive RetryErr where
  | http (statusCode : Nat)
  | net (msg : String)
  | abortedErr
deriving DecidableEq

/-- `Math.min(1000 * Math.pow(2, i), 10000)` (src line 631). -/
def retryDelay (i : Nat) : Nat := min (1000 * 2 ^ i) 10000

/-- The observable behaviour of one `uploadWithRetry` call: how many
attempts were made, the backoff sleeps performed between them in order,
and the returned response or raised error. -/
structure RetryTrace where
  attemptsMade : Nat
  delays : List Nat
  result : Except RetryErr Nat

/-- The error the catch block stores for a failed attempt
(src lines 617-618 and 627). -/
def errOf : FetchOutcome → RetryErr
  | FetchOutcome.resp _ code => RetryErr.http code
  | FetchOutcome.netErr m => RetryErr.net m
  | FetchOutcome.abortReject => RetryErr.abortedErr

/-- Whether an attempt outcome takes the catch path of `uploadWithRetry`
(a non-ok response or a network rejection, src lines 616-627). -/
def isFailure : FetchOutcome → Bool
  | FetchOutcome.resp true _ => false
  | _ => true

/-- The loop of `uploadWithRetry` (src lines 608-637), with `i` the
current attempt index and `fuel = maxRetries - i + 1` the attempts still
allowed: check the signal, run the attempt, return an ok response,
rethrow an abort, and after a failure either sleep
`retryDelay i` and continue (when `i < maxRetries`, i.e. `fuel > 1`) or
raise the recorded error.  `sig j` tells whether the abort signal is set
at the check before attempt `j`; `fn j` is the outcome of attempt `j`. -/
def retryAux (sig : Nat → Bool) (fn : Nat → FetchOutcome) : Nat → Nat → RetryTrace
  | _, 0 => ⟨0, [], Except.error (RetryErr.net "no attempts")⟩
  | i, fuel + 1 =>
    if sig i then ⟨0, [], Except.error RetryErr.abortedErr⟩
    else
      match fn i with
      | FetchOutcome.resp true code => ⟨1, [], Except.ok code⟩
      | FetchOutcome.abortReject => ⟨1, [], Except.error RetryErr.abortedErr⟩
      | FetchOutcome.resp false code =>
          match fuel with
          | 0 => ⟨1, [], Except.error (RetryErr.http code)⟩
          | fuel' + 1 =>
            let rest := retryAux sig fn (i + 1) (fuel' + 1)
            ⟨1 + rest.attemptsMade, retryDelay i :: rest.delays, rest.result⟩
      | FetchOutcome.netErr m =>
          match fuel with
          | 0 => ⟨1, [], Except.error (RetryErr.net m)⟩
          | fuel' + 1 =>
            let rest := retryAux sig fn (i + 1) (fuel' + 1)
            ⟨1 + rest.attemptsMade, retryDelay i :: rest.delays, rest.result⟩

/-- `uploadWithRetry(fn, maxRetries, signal)` (src lines 605-638). -/
def uploadWithRetry (sig : Nat → Bool) (fn : Nat → FetchOutcome)
    (maxRetries : Nat) : RetryTrace :=
  retryAux sig fn 0 (maxRetries + 1)

/-- Status of one worker of `uploadChunksWithConcurrency`
(src lines 537-543): at its loop head, awaiting an in-flight chunk
upload, finished its loop, or rejected with an unrecoverable error while
uploading a chunk. -/
inductive WStatus where
  | idle
  | inFlight (c : Nat)
  | done
  | failed (c : Nat) (msg : String)
deriving DecidableEq

/-- How the scheduler's `Promise.all` settles when a worker rejects
(src line 545). -/
inductive SettleOutcome where
  | fail (msg : String)
deriving DecidableEq

/-- The shared state of one `uploadChunksWithConcurrency` run
(src lines 503-551): the shared cursor `index`, the worker pool, the
task's `uploadedChunks` and `progress` fields, the
`(progress, |uploadedChunks|)` pairs of the emitted status
notifications, the abort signal, and whether `Promise.all` has already
rejected. -/
structure SchedState where
  cursor : Nat
  workers : List WStatus
  uploaded : List Nat
  progress : Nat
  notifs : List (Nat × Nat)
  abortedSig : Bool
  settled : Option SettleOutcome
deriving DecidableEq

/-- The scheduler's state on entry: cursor 0, `concurrentChunks` idle
workers (src line 537), the task's `uploadedChunks` as installed by the
check phase, and the task's `progress`, still 0 (src lines 352, 450). -/
def schedInit (uploaded0 : List Nat) (nW : Nat) : SchedState :=
  ⟨0, List.replicate nW WStatus.idle, uploaded0, 0, [], false, none⟩

/-- Interleaved execution of the scheduler, one suspension point at a
time.  `claim` is the synchronous prefix of a worker's loop body: the
guard `index < chunksToUpload.length && !signal.aborted` (src 538), the
read of `chunksToUpload[index]` plus `index++` (src 539-540), and the
start of the chunk upload; `retire` is a worker leaving its loop;
`complete` is a worker resuming after a successful upload: it pushes the
chunk, recomputes `progress` and notifies (src 531-534); `fail` is a
worker rejecting, which makes `Promise.all` reject if it has not yet
settled (src 545); `abortSig` is `cancelUpload` firing the shared abort
controller (src 391).  Nothing stops workers from continuing to run
after `settled` is set. -/
inductive SchedStep (total : Nat) (ctu : List Nat) : SchedState → SchedState → Prop
  | claim (s : SchedState) (w c : Nat)
      (hw : s.workers[w]? = some WStatus.idle)
      (hc : ctu[s.cursor]? = some c)
      (ha : s.abortedSig = false) :
      SchedStep total ctu s
        { s with cursor := s.cursor + 1,
                 workers := s.workers.set w (WStatus.inFlight c) }
  | retire (s : SchedState) (w : Nat)
      (hw : s.workers[w]? = some WStatus.idle)
      (hstop : ctu.length ≤ s.cursor ∨ s.abortedSig = true) :
      SchedStep total ctu s { s with workers := s.workers.set w WStatus.done }
  | complete (s : SchedState) (w c : Nat)
      (hw : s.workers[w]? = some (WStatus.inFlight c)) :
      SchedStep total ctu s
        { s with workers := s.workers.set w WStatus.idle,
                 uploaded := s.uploaded ++ [c],
                 progress := roundPct (s.uploaded.length + 1) total,
                 notifs := s.notifs ++ [(roundPct (s.uploaded.length + 1) total,
                                         s.uploaded.length + 1)] }
  | fail (s : SchedState) (w c : Nat) (msg : String)
      (hw : s.workers[w]? = some (WStatus.inFlight c)) :
      SchedStep total ctu s
        { s with workers := s.workers.set w (WStatus.failed c msg),
                 settled := match s.settled with
                            | none => some (SettleOutcome.fail msg)
                            | some o => some o }
  | abortSig (s : SchedState) :
      SchedStep total ctu s { s with abortedSig := true }

/-- Reachability in the scheduler's step relation. -/
def SchedReach (total : Nat) (ctu : List Nat) : SchedState → SchedState → Prop :=
  Relation.ReflTransGen (SchedStep total ctu)

/-- The chunk a worker has claimed but not yet recorded in
`uploadedChunks`, as a multiset. -/
def pendingOf : WStatus → Multiset Nat
  | WStatus.inFlight c => {c}
  | WStatus.failed c _ => {c}
  | WStatus.idle => 0
  | WStatus.done => 0

/-- All chunks claimed but not recorded across the worker pool. -/
def pendingM : List WStatus → Multiset Nat
  | [] => 0
  | w :: ws => pendingOf w + pendingM ws

/-- The number of chunk uploads currently in flight. -/
def activeChunkUploads (s : SchedState) : Nat :=
  (s.workers.filter (fun w => match w with
    | WStatus.inFlight _ => true
    | _ => false)).length

/-- The inductive invariant of a scheduler run started from
`schedInit uploaded0 nW` over the pending list `ctu`: the pool size is
constant, the cursor stays within the list, the recorded and pending
chunks together are exactly the initial set plus everything claimed so
far, and, while the signal is clear, a finished worker certifies that
the cursor has exhausted the list. -/
structure SchedInv (ctu uploaded0 : List Nat) (nW : Nat) (s : SchedState) : Prop where
  wlen : s.workers.length = nW
  cle : s.cursor ≤ ctu.length
  acct : (s.uploaded : Multiset Nat) + pendingM s.workers
         = (uploaded0 : Multiset Nat) + (ctu.take s.cursor : Multiset Nat)
  donecur : s.abortedSig = false → WStatus.done ∈ s.workers → ctu.length ≤ s.cursor

/-- The orchestrator state `processQueue` operates on (src lines
335-336): the pending queue (task ids) and `uploadingCount`. -/
structure OrchState where
  uploadQueue : List Nat
  uploadingCount : Nat
deriving DecidableEq

/-- Interleaved execution of the orchestrator: `enqueue` is `addFiles`
appending a task (src line 360); `dispatch` is one iteration of the
`processQueue` loop, which shifts the head and increments
`uploadingCount` only under the guard `uploadingCount <
concurrentFiles` (src lines 405-408); `settle` is the `finally` handler
decrementing the count (src line 410). -/
inductive OrchStep (bound : Nat) : OrchState → OrchState → Prop
  | enqueue (s : OrchState) (t : Nat) :
      OrchStep bound s ⟨s.uploadQueue ++ [t], s.uploadingCount⟩
  | dispatch (s : OrchState) (t : Nat) (q : List Nat)
      (hq : s.uploadQueue = t :: q) (hc : s.uploadingCount < bound) :
      OrchStep bound s ⟨q, s.uploadingCount + 1⟩
  | settle (s : OrchState) (c : Nat) (hc : s.uploadingCount = c + 1) :
      OrchStep bound s ⟨s.uploadQueue, c⟩

/-- A freshly constructed uploader: empty queue, nothing in flight
(src lines 335-336). -/
def orchInit : OrchState := ⟨[], 0⟩

/-- Reachability in the orchestrator's step relation. -/
def OrchReach (bound : Nat) : OrchState → OrchState → Prop :=
  Relation.ReflTransGen (OrchStep bound)

/-- The four states of a complete one-chunk scheduler run, used to
evaluate `uploadedChunks_exact_at_merge`. -/
def c1s1 : SchedState :=
  ⟨1, [WStatus.inFlight 0], [], 0, [], false, none⟩

/-- After the single chunk completes. -/
def c1s2 : SchedState :=
  ⟨1, [WStatus.idle], [0], 100, [(100, 1)], false, none⟩

/-- After the worker retires: a successful run's final state. -/
def c1s3 : SchedState :=
  ⟨1, [WStatus.done], [0], 100, [(100, 1)], false, none⟩

/-- C9 run, step 1: worker 0 claims chunk 0. -/
def c9s1 : SchedState :=
  ⟨1, [WStatus.inFlight 0, WStatus.idle], [], 0, [], false, none⟩

/-- C9 run, step 2: worker 1 claims chunk 1. -/
def c9s2 : SchedState :=
  ⟨2, [WStatus.inFlight 0, WStatus.inFlight 1], [], 0, [], false, none⟩

/-- C9 run, step 3: worker 0 rejects unrecoverably, so `Promise.all`
rejects and the file settles to `error`. -/
def c9s3 : SchedState :=
  ⟨2, [WStatus.failed 0 "boom", WStatus.inFlight 1], [], 0, [], false,
   some (SettleOutcome.fail "boom")⟩

/-- C9 run, step 4: worker 1's in-flight upload still completes. -/
def c9s4 : SchedState :=
  ⟨2, [WStatus.failed 0 "boom", WStatus.idle], [1], 33, [(33, 1)], false,
   some (SettleOutcome.fail "boom")⟩

/-- C9 run, step 5: worker 1 claims the fresh chunk 2 after settlement. -/
def c9s5 : SchedState :=
  ⟨3, [WStatus.failed 0 "boom", WStatus.inFlight 2], [1], 33, [(33, 1)], false,
   some (SettleOutcome.fail "boom")⟩

/-- The task as it settles to `error` when `Promise.all` rejects. -/
def c9Item : FileItem :=
  { id := 2, file := ⟨"w.bin", 6, [1, 2, 3, 4, 5, 6]⟩, status := Status.uploading,
    progress := 0, name := "w.bin", size := 6, uploadedChunks := [],
    totalChunks := 3, md5 := some "m", error := none }

/-- C4: for every task whose check response reports `exists = true`,
`processFile` finishes the task as `success` with `progress = 100` and
its network trace is just the check call: no chunk upload and no merge
call follow, whatever the later phases would have issued. -/
theorem instant_transfer_no_further_ops (it : FileItem) (md5v : String)
    (resp : CheckResp) (hex : resp.fileExists = true) :
    ∃ fin, (checkPhase it md5v resp).out = Phase1.finished fin ∧
      fin.status = Status.success ∧ fin.progress = 100 ∧
      ∀ rest, phase1Ops (checkPhase it md5v resp).out rest = [NetOp.checkOp] := by
  unfold checkPhase
  rw [hex]
  exact ⟨_, rfl, rfl, rfl, fun _ => rfl⟩

/-- Witness for C4 at a concrete task and check response. -/
theorem instant_transfer_no_further_ops_witness :
    ∃ fin,
      (checkPhase (addFileItem 1 ⟨"a.bin", 5, [1, 2, 3, 4, 5]⟩ 2) "m"
          ⟨true, some "p", []⟩).out = Phase1.finished fin ∧
      fin.status = Status.success ∧ fin.progress = 100 ∧
      ∀ rest, phase1Ops (checkPhase (addFileItem 1 ⟨"a.bin", 5, [1, 2, 3, 4, 5]⟩ 2) "m"
          ⟨true, some "p", []⟩).out rest = [NetOp.checkOp] :=
  instant_transfer_no_further_ops _ _ _ rfl

/-- C6: the fallback fingerprint path is not a function of the file's
bytes: for identical byte content it yields different digests at
different clock readings, and different digests for different names at
the same clock reading. -/
theorem fallback_digest_not_content_derived :
    c6FileA.bytes = c6FileB.bytes ∧
    calculateMD5Fallback 1000 c6FileA ≠ calculateMD5Fallback 2000 c6FileA ∧
    calculateMD5Fallback 1000 c6FileA ≠ calculateMD5Fallback 1000 c6FileB := by
  decide

/-- C7 counterexample: a merge response whose body reports
`success = false` (merge rejected in-band) still drives the task to
`success`, because the body's `success` flag is never inspected
(src lines 583-596 and 476-481). -/
theorem merge_inband_failure_yields_success :
    (MergeBody.mk false none).success = false ∧
    (mergePhase c7Item (MergeOutcome.resp true 200 (MergeBody.mk false none))).item.status
      = Status.success ∧
    (mergePhase c7Item (MergeOutcome.resp true 200 (MergeBody.mk false none))).item.status
      ≠ Status.error := by
  decide

/-- C7 amended: a merge call failing at the HTTP level (non-ok response,
as the reference server produces for a missing chunk) drives the task to
`error` with the thrown message, never `success`, and the merge is
issued exactly once: it is not retried. -/
theorem merge_http_failure_yields_error (it : FileItem) (code : Nat) (body : MergeBody) :
    (mergePhase it (MergeOutcome.resp false code body)).item.status = Status.error ∧
    (mergePhase it (MergeOutcome.resp false code body)).item.error
      = some ("HTTP error! status: " ++ toString code) ∧
    (mergePhase it (MergeOutcome.resp false code body)).ops
      = [NetOp.mergeOp it.totalChunks] :=
  ⟨rfl, rfl, rfl⟩

/-- C10: a zero-byte file gets `totalChunks = 0`; on a check response
with `exists = false` the run takes the merge-only branch (no chunk
upload), issues the merge call with `totalChunks = 0`, and on a
successful merge response the task settles to `success` with
`progress = 100`. -/
theorem zero_byte_merge_path (f : FileSrc) (cs fid : Nat) (md5v : String)
    (resp : CheckResp) (code : Nat) (body : MergeBody)
    (hsz : f.size = 0) (hcs : 0 < cs) (hex : resp.fileExists = false) :
    (addFileItem fid f cs).totalChunks = 0 ∧
    ∃ it3, (checkPhase (addFileItem fid f cs) md5v resp).out = Phase1.needMerge it3 ∧
      it3.totalChunks = 0 ∧
      phase1Ops (checkPhase (addFileItem fid f cs) md5v resp).out
          (mergePhase it3 (MergeOutcome.resp true code body)).ops
        = [NetOp.checkOp, NetOp.mergeOp 0] ∧
      (mergePhase it3 (MergeOutcome.resp true code body)).item.status = Status.success ∧
      (mergePhase it3 (MergeOutcome.resp true code body)).item.progress = 100 := by
  have htc : (addFileItem fid f cs).totalChunks = 0 := by
    simp only [addFileItem, ceilDiv, hsz]
    exact Nat.div_eq_of_lt (by omega)
  refine ⟨htc, ?_⟩
  unfold checkPhase
  rw [hex]
  simp only [Bool.false_eq_true, if_false, chunksToUploadOf, htc, List.range_zero,
    List.filter_nil, List.isEmpty_nil, if_true]
  exact ⟨_, rfl, rfl, rfl, rfl, rfl⟩

/-- Witness for C10 at a concrete zero-byte file. -/
theorem zero_byte_merge_path_witness :
    (addFileItem 3 ⟨"empty.bin", 0, []⟩ 2).totalChunks = 0 ∧
    ∃ it3, (checkPhase (addFileItem 3 ⟨"empty.bin", 0, []⟩ 2) "m"
        ⟨false, none, []⟩).out = Phase1.needMerge it3 ∧
      it3.totalChunks = 0 ∧
      phase1Ops (checkPhase (addFileItem 3 ⟨"empty.bin", 0, []⟩ 2) "m"
          ⟨false, none, []⟩).out
          (mergePhase it3 (MergeOutcome.resp true 200 ⟨true, some "p"⟩)).ops
        = [NetOp.checkOp, NetOp.mergeOp 0] ∧
      (mergePhase it3 (MergeOutcome.resp true 200 ⟨true, some "p"⟩)).item.status
        = Status.success ∧
      (mergePhase it3 (MergeOutcome.resp true 200 ⟨true, some "p"⟩)).item.progress = 100 :=
  zero_byte_merge_path _ _ _ _ _ _ _ rfl (by decide) rfl

/-- C8 amended: once a task's status is `cancelled`, `success` or
`error`, a subsequent `cancelUpload` call for it changes no state at
all, emits no notification, and fires no abort. -/
theorem cancelUpload_terminal_noop (st : UploaderState) (fid : Nat) (it : FileItem)
    (hfind : st.files.find? (fun x => x.id == fid) = some it)
    (hterm : it.status = Status.cancelled ∨ it.status = Status.success ∨
             it.status = Status.error) :
    cancelUpload st fid = ⟨st, [], false⟩ := by
  rcases hterm with h | h | h <;> simp [cancelUpload, hfind, h]

/-- Witness for the amended C8 at a concrete terminal task. -/
theorem cancelUpload_terminal_noop_witness :
    cancelUpload c8DoneState 7 = ⟨c8DoneState, [], false⟩ :=
  cancelUpload_terminal_noop c8DoneState 7 c8DoneItem (by decide) (by decide)

/-- C8 counterexample: cancelling an in-flight task settles it to
`cancelled` with one notification, yet the still-running `processFile`
continuation then observes the `AbortError` and emits a further status
notification for the already-terminal task (src lines 482-486). -/
theorem cancelled_task_gets_further_notification :
    (cancelUpload c8St 7).notifs.length = 1 ∧
    (cancelUpload c8St 7).state.files.find? (fun x => x.id == 7) = some c8ItemCancelled ∧
    c8ItemCancelled.status = Status.cancelled ∧
    (catchBlock c8ItemCancelled UErr.abortError).2.length = 1 := by
  decide

/-- C3 counterexample: when the resume check reports
`uploadedChunks = [0, 1]` for a three-chunk task, the notification
emitted on entering `uploading` is an observable point whose task is not
`success`, yet whose `progress` is 0 and not
`round(|uploadedChunks| / totalChunks * 100) = 67`: the progress field
is not recomputed when the server-reported set is installed
(src lines 450, 463-464). -/
theorem resume_install_progress_stale :
    ∃ snap, (checkPhase c3Item "m" ⟨false, none, [0, 1]⟩).notifs.get? 1 = some snap ∧
      snap.status = Status.uploading ∧
      snap.uploadedChunks.length = 2 ∧ snap.totalChunks = 3 ∧
      snap.progress = 0 ∧
      roundPct snap.uploadedChunks.length snap.totalChunks = 67 ∧
      snap.progress ≠ roundPct snap.uploadedChunks.length snap.totalChunks := by
  decide

/-- Unfolding: a successful attempt returns the response at once. -/
theorem retryAux_ok_step (sig : Nat → Bool) (fn : Nat → FetchOutcome)
    (i fuel code : Nat) (hs : sig i = false)
    (hok : fn i = FetchOutcome.resp true code) :
    retryAux sig fn i (fuel + 1) = ⟨1, [], Except.ok code⟩ := by
  rw [retryAux, hs, hok]
  rfl

/-- Unfolding: a failed final attempt raises its error with no sleep. -/
theorem retryAux_fail_one (sig : Nat → Bool) (fn : Nat → FetchOutcome)
    (i : Nat) (hs : sig i = false) (hf : isFailure (fn i) = true)
    (hna : fn i ≠ FetchOutcome.abortReject) :
    retryAux sig fn i 1 = ⟨1, [], Except.error (errOf (fn i))⟩ := by
  cases hok : fn i with
  | resp ok code =>
    cases ok with
    | true => rw [hok] at hf; simp [isFailure] at hf
    | false =>
      rw [retryAux, hs, hok]
      rfl
  | netErr m =>
    rw [retryAux, hs, hok]
    rfl
  | abortReject => exact absurd hok hna

/-- Unfolding: a failed non-final attempt sleeps `retryDelay i` and
continues with the next attempt. -/
theorem retryAux_fail_step (sig : Nat → Bool) (fn : Nat → FetchOutcome)
    (i fuel : Nat) (hs : sig i = false) (hf : isFailure (fn i) = true)
    (hna : fn i ≠ FetchOutcome.abortReject) :
    retryAux sig fn i (fuel + 2)
      = ⟨1 + (retryAux sig fn (i + 1) (fuel + 1)).attemptsMade,
         retryDelay i :: (retryAux sig fn (i + 1) (fuel + 1)).delays,
         (retryAux sig fn (i + 1) (fuel + 1)).result⟩ := by
  cases hok : fn i with
  | resp ok code =>
    cases ok with
    | true => rw [hok] at hf; simp [isFailure] at hf
    | false =>
      rw [retryAux, hs, hok]
      rfl
  | netErr m =>
    rw [retryAux, hs, hok]
    rfl
  | abortReject => exact absurd hok hna

/-- A non-abort outcome that is not a failure is an ok response. -/
theorem not_failure_ok (o : FetchOutcome) (h : isFailure o = false) :
    ∃ code, o = FetchOutcome.resp true code := by
  cases o with
  | resp ok code =>
    cases ok with
    | true => exact ⟨code, rfl⟩
    | false => simp [isFailure] at h
  | netErr m => simp [isFailure] at h
  | abortReject => simp [isFailure] at h

/-- Behaviour of the retry loop from attempt `i` with positive fuel,
absent cancellation: at least one and at most `fuel` attempts, a backoff
sleep of `retryDelay` of the attempt's index after every failed attempt
but the last, and, when every allowed attempt fails, the error of the
final attempt. -/
theorem retryAux_spec (sig : Nat → Bool) (fn : Nat → FetchOutcome)
    (hsig : ∀ j, sig j = false) (hnab : ∀ j, fn j ≠ FetchOutcome.abortReject) :
    ∀ fuel i, 0 < fuel →
      1 ≤ (retryAux sig fn i fuel).attemptsMade ∧
      (retryAux sig fn i fuel).attemptsMade ≤ fuel ∧
      (retryAux sig fn i fuel).delays
        = (List.range ((retryAux sig fn i fuel).attemptsMade - 1)).map
            (fun j => retryDelay (i + j)) ∧
      ((∀ j, j < fuel → isFailure (fn (i + j)) = true) →
        (retryAux sig fn i fuel).result = Except.error (errOf (fn (i + fuel - 1)))) := by
  intro fuel
  induction fuel with
  | zero => intro i h; omega
  | succ fuel ih =>
    intro i _
    by_cases hfi : isFailure (fn i) = true
    · cases fuel with
      | zero =>
        rw [retryAux_fail_one sig fn i (hsig i) hfi (hnab i)]
        refine ⟨le_refl 1, le_refl 1, rfl, fun _ => ?_⟩
        simp
      | succ fuel' =>
        have h' := ih (i + 1) (by omega)
        have h1 := h'.1
        have h2 := h'.2.1
        rw [retryAux_fail_step sig fn i fuel' (hsig i) hfi (hnab i)]
        refine ⟨?_, ?_, ?_, ?_⟩
        · show 1 ≤ 1 + (retryAux sig fn (i + 1) (fuel' + 1)).attemptsMade
          omega
        · show 1 + (retryAux sig fn (i + 1) (fuel' + 1)).attemptsMade ≤ fuel' + 1 + 1
          omega
        · show retryDelay i :: (retryAux sig fn (i + 1) (fuel' + 1)).delays
            = (List.range (1 + (retryAux sig fn (i + 1) (fuel' + 1)).attemptsMade - 1)).map
                (fun j => retryDelay (i + j))
          rw [h'.2.2.1]
          have hm : 1 + (retryAux sig fn (i + 1) (fuel' + 1)).attemptsMade - 1
              = (retryAux sig fn (i + 1) (fuel' + 1)).attemptsMade := by omega
          rw [hm]
          obtain ⟨k, hk⟩ : ∃ k, (retryAux sig fn (i + 1) (fuel' + 1)).attemptsMade
              = k + 1 := ⟨(retryAux sig fn (i + 1) (fuel' + 1)).attemptsMade - 1, by omega⟩
          rw [hk, List.range_succ_eq_map, List.map_cons, List.map_map]
          have hfun : ((fun j => retryDelay (i + j)) ∘ Nat.succ)
              = fun j => retryDelay (i + 1 + j) := by
            funext j
            simp only [Function.comp]
            congr 1
            omega
          rw [hfun, Nat.add_zero]
          simp
        · intro hall
          show (retryAux sig fn (i + 1) (fuel' + 1)).result
            = Except.error (errOf (fn (i + (fuel' + 1 + 1) - 1)))
          rw [h'.2.2.2 (fun j hj => by
            have := hall (1 + j) (by omega)
            rwa [← Nat.add_assoc] at this),
            show i + 1 + (fuel' + 1) - 1 = i + (fuel' + 1 + 1) - 1 from by omega]
    · have hfi' : isFailure (fn i) = false := by
        cases hb : isFailure (fn i) with
        | true => exact absurd hb hfi
        | false => rfl
      obtain ⟨code, hok⟩ := not_failure_ok (fn i) hfi'
      rw [retryAux_ok_step sig fn i fuel code (hsig i) hok]
      refine ⟨le_refl 1, ?_, rfl, fun hall => ?_⟩
      · show (1 : Nat) ≤ fuel + 1
        omega
      · have := hall 0 (by omega)
        rw [Nat.add_zero] at this
        exact absurd this hfi

/-- C5: absent cancellation, `uploadWithRetry` makes at most
`maxRetries + 1` attempts; its backoff sleeps are exactly
`min(1000 * 2 ^ i, 10000)` for the zero-based indices `i` of the failed
attempts, excluding the last attempt; and when every attempt fails it
raises the error of the most recent attempt. -/
theorem uploadWithRetry_spec (sig : Nat → Bool) (fn : Nat → FetchOutcome)
    (maxRetries : Nat) (hsig : ∀ j, sig j = false)
    (hnab : ∀ j, fn j ≠ FetchOutcome.abortReject) :
    (uploadWithRetry sig fn maxRetries).attemptsMade ≤ maxRetries + 1 ∧
    (uploadWithRetry sig fn maxRetries).delays
      = (List.range ((uploadWithRetry sig fn maxRetries).attemptsMade - 1)).map retryDelay ∧
    ((∀ j, j ≤ maxRetries → isFailure (fn j) = true) →
      (uploadWithRetry sig fn maxRetries).result
        = Except.error (errOf (fn maxRetries))) := by
  have h := retryAux_spec sig fn hsig hnab (maxRetries + 1) 0 (by omega)
  unfold uploadWithRetry
  refine ⟨h.2.1, ?_, ?_⟩
  · rw [h.2.2.1]
    have hfun : (fun j => retryDelay (0 + j)) = retryDelay := by
      funext j
      rw [Nat.zero_add]
    rw [hfun]
  · intro hall
    have hres := h.2.2.2 (fun j hj => by
      have := hall j (by omega)
      simpa using this)
    simpa using hres

/-- Witness for C5: three total attempts with `maxRetries = 2`, all
failing with a network error, sleeping 1000ms then 2000ms, and raising
the final error. -/
theorem uploadWithRetry_spec_witness :
    (uploadWithRetry (fun _ => false) (fun _ => FetchOutcome.netErr "boom") 2).attemptsMade
        ≤ 3 ∧
    (uploadWithRetry (fun _ => false) (fun _ => FetchOutcome.netErr "boom") 2).delays
      = (List.range ((uploadWithRetry (fun _ => false)
            (fun _ => FetchOutcome.netErr "boom") 2).attemptsMade - 1)).map retryDelay ∧
    (uploadWithRetry (fun _ => false) (fun _ => FetchOutcome.netErr "boom") 2).result
      = Except.error (RetryErr.net "boom") := by
  have h := uploadWithRetry_spec (fun _ => false) (fun _ => FetchOutcome.netErr "boom") 2
    (fun _ => rfl) (fun _ => by simp)
  exact ⟨h.1, h.2.1, h.2.2 (fun j _ => rfl)⟩

/-- Replacing one worker exchanges its pending contribution. -/
theorem pendingM_set : ∀ (ws : List WStatus) (w : Nat) (x y : WStatus),
    ws[w]? = some x →
    pendingM (ws.set w y) + pendingOf x = pendingM ws + pendingOf y := by
  intro ws
  induction ws with
  | nil => intro w x y h; simp at h
  | cons a as ih =>
    intro w x y h
    cases w with
    | zero =>
      have hax : a = x := by simpa using h
      subst hax
      simp only [List.set, pendingM]
      abel
    | succ w' =>
      have h' : as[w']? = some x := by simpa using h
      have hih := ih w' x y h'
      simp only [List.set, pendingM]
      rw [add_assoc, add_assoc, hih]

/-- A pool of finished workers holds no pending chunk. -/
theorem pendingM_all_done : ∀ (ws : List WStatus),
    (∀ w ∈ ws, w = WStatus.done) → pendingM ws = 0 := by
  intro ws
  induction ws with
  | nil => intro _; rfl
  | cons a as ih =>
    intro h
    have ha := h a (by simp)
    subst ha
    simp only [pendingM, pendingOf]
    rw [ih (fun w hw => h w (by simp [hw]))]
    rfl

/-- A fresh pool of idle workers holds no pending chunk. -/
theorem pendingM_replicate_idle : ∀ n : Nat,
    pendingM (List.replicate n WStatus.idle) = 0 := by
  intro n
  induction n with
  | zero => rfl
  | succ n ih =>
    simp only [List.replicate, pendingM, pendingOf]
    rw [ih]
    rfl

/-- The invariant holds initially. -/
theorem schedInv_init (ctu uploaded0 : List Nat) (nW : Nat) :
    SchedInv ctu uploaded0 nW (schedInit uploaded0 nW) := by
  refine ⟨?_, ?_, ?_, ?_⟩
  · simp [schedInit]
  · simp [schedInit]
  · simp [schedInit, pendingM_replicate_idle]
  · intro _ hmem
    have h2 : WStatus.done ∈ List.replicate nW WStatus.idle := hmem
    exact WStatus.noConfusion (List.mem_replicate.mp h2).2

/-- Every scheduler step preserves the invariant. -/
theorem schedInv_step {total : Nat} {ctu uploaded0 : List Nat} {nW : Nat}
    {s t : SchedState} (h : SchedStep total ctu s t)
    (hs : SchedInv ctu uploaded0 nW s) : SchedInv ctu uploaded0 nW t := by
  cases h with
  | claim w c hw hc ha =>
    have hcur : s.cursor < ctu.length := (List.getElem?_eq_some.mp hc).1
    refine ⟨?_, ?_, ?_, ?_⟩
    · simp [List.length_set, hs.wlen]
    · show s.cursor + 1 ≤ ctu.length
      omega
    · have hps := pendingM_set s.workers w WStatus.idle (WStatus.inFlight c) hw
      simp only [pendingOf] at hps
      rw [add_zero] at hps
      show (s.uploaded : Multiset Nat) + pendingM (s.workers.set w (WStatus.inFlight c))
          = (uploaded0 : Multiset Nat) + (ctu.take (s.cursor + 1) : Multiset Nat)
      rw [List.take_succ, hc]
      have hco : ((ctu.take s.cursor ++ (some c).toList : List Nat) : Multiset Nat)
          = (ctu.take s.cursor : Multiset Nat) + ({c} : Multiset Nat) := rfl
      rw [hco, hps, ← add_assoc, ← add_assoc, hs.acct]
    · intro hab hmem
      rcases List.mem_or_eq_of_mem_set hmem with hmem' | heq
      · have := hs.donecur hab hmem'
        omega
      · exact WStatus.noConfusion heq
  | retire w hw hstop =>
    refine ⟨?_, hs.cle, ?_, ?_⟩
    · simp [List.length_set, hs.wlen]
    · have hps := pendingM_set s.workers w WStatus.idle WStatus.done hw
      simp only [pendingOf] at hps
      rw [add_zero, add_zero] at hps
      show (s.uploaded : Multiset Nat) + pendingM (s.workers.set w WStatus.done)
          = (uploaded0 : Multiset Nat) + (ctu.take s.cursor : Multiset Nat)
      rw [hps, hs.acct]
    · intro hab _
      rcases hstop with hle | habt
      · exact hle
      · rw [hab] at habt
        exact Bool.noConfusion habt
  | complete w c hw =>
    refine ⟨?_, hs.cle, ?_, ?_⟩
    · simp [List.length_set, hs.wlen]
    · have hps := pendingM_set s.workers w (WStatus.inFlight c) WStatus.idle hw
      simp only [pendingOf] at hps
      rw [add_zero] at hps
      show (s.uploaded ++ [c] : Multiset Nat) + pendingM (s.workers.set w WStatus.idle)
          = (uploaded0 : Multiset Nat) + (ctu.take s.cursor : Multiset Nat)
      have hco : ((s.uploaded ++ [c] : List Nat) : Multiset Nat)
          = (s.uploaded : Multiset Nat) + ({c} : Multiset Nat) := rfl
      rw [hco, add_assoc, add_comm ({c} : Multiset Nat), hps, hs.acct]
    · intro hab hmem
      rcases List.mem_or_eq_of_mem_set hmem with hmem' | heq
      · exact hs.donecur hab hmem'
      · exact WStatus.noConfusion heq
  | fail w c msg hw =>
    refine ⟨?_, hs.cle, ?_, ?_⟩
    · simp [List.length_set, hs.wlen]
    · have hps := pendingM_set s.workers w (WStatus.inFlight c) (WStatus.failed c msg) hw
      simp only [pendingOf] at hps
      have hpe : pendingM (s.workers.set w (WStatus.failed c msg)) = pendingM s.workers :=
        add_right_cancel hps
      show (s.uploaded : Multiset Nat) + pendingM (s.workers.set w (WStatus.failed c msg))
          = (uploaded0 : Multiset Nat) + (ctu.take s.cursor : Multiset Nat)
      rw [hpe, hs.acct]
    · intro hab hmem
      rcases List.mem_or_eq_of_mem_set hmem with hmem' | heq
      · exact hs.donecur hab hmem'
      · exact WStatus.noConfusion heq
  | abortSig =>
    refine ⟨hs.wlen, hs.cle, hs.acct, ?_⟩
    intro hab _
    exact Bool.noConfusion hab

/-- The invariant holds in every reachable scheduler state. -/
theorem schedInv_reach {total : Nat} {ctu uploaded0 : List Nat} {nW : Nat}
    {s : SchedState} (hr : SchedReach total ctu (schedInit uploaded0 nW) s) :
    SchedInv ctu uploaded0 nW s := by
  induction hr with
  | refl => exact schedInv_init ctu uploaded0 nW
  | tail _ hstep ih => exact schedInv_step hstep ih

/-- C1: for a task whose check reported `exists = false` with a
duplicate-free `uploadedChunks` inside `[0, totalChunks)`, any scheduler
run over the computed pending list that completes successfully — every
worker finished its loop, none failed, none aborted — leaves
`uploadedChunks` exactly `{0, ..., totalChunks - 1}` with no duplicates;
this is the task's state at the moment the merge call is issued. -/
theorem uploadedChunks_exact_at_merge (total nW : Nat) (uploaded0 : List Nat)
    (s : SchedState) (hnW : 0 < nW) (hnd : uploaded0.Nodup)
    (hsub : ∀ i ∈ uploaded0, i < total)
    (hr : SchedReach total (chunksToUploadOf total uploaded0)
            (schedInit uploaded0 nW) s)
    (hdone : ∀ w ∈ s.workers, w = WStatus.done) (hab : s.abortedSig = false) :
    s.uploaded.Nodup ∧ s.uploaded.toFinset = Finset.range total := by
  have hinv := schedInv_reach hr
  have hpend : pendingM s.workers = 0 := pendingM_all_done _ hdone
  obtain ⟨x, hx⟩ := List.length_pos_iff_exists_mem.mp
    (show 0 < s.workers.length by rw [hinv.wlen]; omega)
  have hxd := hdone x hx
  rw [hxd] at hx
  have hcur : s.cursor = (chunksToUploadOf total uploaded0).length :=
    le_antisymm hinv.cle (hinv.donecur hab hx)
  have hacct := hinv.acct
  rw [hpend, add_zero, hcur, List.take_length] at hacct
  have hco : (uploaded0 : Multiset Nat)
        + (chunksToUploadOf total uploaded0 : Multiset Nat)
      = ((uploaded0 ++ chunksToUploadOf total uploaded0 : List Nat) : Multiset Nat) := rfl
  rw [hco] at hacct
  have hperm : s.uploaded.Perm (uploaded0 ++ chunksToUploadOf total uploaded0) :=
    Multiset.coe_eq_coe.mp hacct
  have hctund : (chunksToUploadOf total uploaded0).Nodup :=
    List.Nodup.filter _ (List.nodup_range total)
  have hdisj : uploaded0.Disjoint (chunksToUploadOf total uploaded0) := by
    intro a ha hmem
    have hcontains := (List.mem_filter.mp hmem).2
    have h2 : uploaded0.contains a = true := List.elem_eq_true_of_mem ha
    rw [h2] at hcontains
    exact Bool.noConfusion hcontains
  have hnodup : (uploaded0 ++ chunksToUploadOf total uploaded0).Nodup :=
    List.nodup_append.mpr ⟨hnd, hctund, hdisj⟩
  refine ⟨List.Perm.nodup hperm.symm hnodup, ?_⟩
  rw [List.toFinset_eq_of_perm _ _ hperm, List.toFinset_append]
  ext a
  simp only [Finset.mem_union, List.mem_toFinset, Finset.mem_range, chunksToUploadOf,
    List.mem_filter, List.mem_range]
  constructor
  · rintro (ha | ⟨ha, _⟩)
    · exact hsub a ha
    · exact ha
  · intro ha
    by_cases hmem : a ∈ uploaded0
    · exact Or.inl hmem
    · refine Or.inr ⟨ha, ?_⟩
      cases hc : uploaded0.contains a with
      | false => simp [hc]
      | true => exact absurd (List.mem_of_elem_eq_true hc) hmem

/-- Witness for C1: a one-chunk fresh upload run end to end. -/
theorem uploadedChunks_exact_at_merge_witness :
    ([0] : List Nat).Nodup ∧ ([0] : List Nat).toFinset = Finset.range 1 := by
  have h1 : SchedReach 1 (chunksToUploadOf 1 []) (schedInit [] 1) c1s1 :=
    Relation.ReflTransGen.single
      (SchedStep.claim (schedInit [] 1) 0 0 (by decide) (by decide) rfl)
  have h2 : SchedReach 1 (chunksToUploadOf 1 []) (schedInit [] 1) c1s2 :=
    h1.tail (SchedStep.complete c1s1 0 0 (by decide))
  have hr : SchedReach 1 (chunksToUploadOf 1 []) (schedInit [] 1) c1s3 :=
    h2.tail (SchedStep.retire c1s2 0 (by decide) (Or.inl (by decide)))
  exact uploadedChunks_exact_at_merge 1 1 [] c1s3 (by decide) (by decide)
    (by intro i h; cases h) hr
    (by intro w hw; cases hw with
        | head => rfl
        | tail _ h => cases h)
    rfl

/-- C2: the file-level bound — in every reachable orchestrator state,
`uploadingCount ≤ concurrentFiles`, since `processQueue` dispatches only
under its guard — and the chunk-level bound — in every reachable
scheduler state, the number of in-flight chunk uploads is at most
`concurrentChunks`, since the pool always holds exactly
`concurrentChunks` workers, each awaiting at most one upload. -/
theorem concurrency_bounds_never_exceeded :
    (∀ (bound : Nat) (s : OrchState), OrchReach bound orchInit s →
        s.uploadingCount ≤ bound) ∧
    (∀ (total nW : Nat) (ctu uploaded0 : List Nat) (s : SchedState),
        SchedReach total ctu (schedInit uploaded0 nW) s →
        activeChunkUploads s ≤ nW) := by
  constructor
  · intro bound s hr
    induction hr with
    | refl => exact Nat.zero_le bound
    | tail _ hstep ih =>
      cases hstep with
      | enqueue t => exact ih
      | dispatch t q hq hc => exact hc
      | settle c hc =>
        show c ≤ bound
        omega
  · intro total nW ctu uploaded0 s hr
    have hinv := schedInv_reach hr
    calc activeChunkUploads s ≤ s.workers.length := List.length_filter_le _ _
      _ = nW := hinv.wlen

/-- Witness for C2: both bounds evaluated at the initial states. -/
theorem concurrency_bounds_never_exceeded_witness :
    orchInit.uploadingCount ≤ 3 ∧ activeChunkUploads (schedInit [] 2) ≤ 2 :=
  ⟨concurrency_bounds_never_exceeded.1 3 orchInit Relation.ReflTransGen.refl,
   concurrency_bounds_never_exceeded.2 5 2 [0, 1, 2] [] (schedInit [] 2)
     Relation.ReflTransGen.refl⟩

/-- C9: a concrete interleaving of a two-worker scheduler over the
three-chunk pending list in which worker 0 fails unrecoverably — the
run settles and the state machine records `error` — yet no cancellation
reaches worker 1: its upload stays in flight, and it then claims the
fresh chunk index 2 and starts another upload, the abort signal still
clear (src lines 537-551: the signal is aborted only by `cancelUpload`,
never by a worker's failure). -/
theorem worker_failure_not_propagated :
    chunksToUploadOf 3 [] = [0, 1, 2] ∧
    SchedStep 3 [0, 1, 2] (schedInit [] 2) c9s1 ∧
    SchedStep 3 [0, 1, 2] c9s1 c9s2 ∧
    SchedStep 3 [0, 1, 2] c9s2 c9s3 ∧
    c9s3.settled = some (SettleOutcome.fail "boom") ∧
    (catchBlock c9Item (UErr.jsError "boom")).1.status = Status.error ∧
    SchedStep 3 [0, 1, 2] c9s3 c9s4 ∧
    SchedStep 3 [0, 1, 2] c9s4 c9s5 ∧
    c9s4.settled = some (SettleOutcome.fail "boom") ∧
    c9s5.cursor = c9s4.cursor + 1 ∧
    c9s5.workers[1]? = some (WStatus.inFlight 2) ∧
    c9s5.abortedSig = false := by
  refine ⟨by decide, ?_, ?_, ?_, rfl, rfl, ?_, ?_, rfl, rfl, by decide, rfl⟩
  · exact SchedStep.claim (schedInit [] 2) 0 0 (by decide) (by decide) rfl
  · exact SchedStep.claim c9s1 1 1 (by decide) (by decide) rfl
  · exact SchedStep.fail c9s2 0 0 "boom" (by decide)
  · exact SchedStep.complete c9s3 1 1 (by decide)
  · exact SchedStep.claim c9s4 1 2 (by decide) (by decide) rfl

/-- C3 amended: at every chunk-completion notification the reported
`progress` is `roundPct` of the reported chunk count, and from the
first such notification on the task's `progress` tracks
`roundPct(|uploadedChunks|, totalChunks)`; on a successful merge the
task reaches `success` with `progress = 100`; but the notification
emitted on entering `uploading` keeps the task's previous `progress`
(0 for a fresh task) rather than recomputing it from the
server-reported `uploadedChunks` set it has just installed. -/
theorem progress_formula_at_completions :
    (∀ (total nW : Nat) (ctu uploaded0 : List Nat) (s : SchedState),
        SchedReach total ctu (schedInit uploaded0 nW) s →
        (s.notifs = [] → s.progress = 0 ∧ s.uploaded = uploaded0) ∧
        (∀ p ∈ s.notifs, p.1 = roundPct p.2 total) ∧
        (s.notifs ≠ [] → s.progress = roundPct s.uploaded.length total)) ∧
    (∀ (item0 : FileItem) (md5v : String) (resp : CheckResp) (it4 : FileItem)
        (ctu : List Nat),
        (checkPhase item0 md5v resp).out = Phase1.needUpload it4 ctu →
        it4.progress = item0.progress ∧ it4.uploadedChunks = resp.uploadedChunks) ∧
    (∀ (it : FileItem) (code : Nat) (body : MergeBody),
        (mergePhase it (MergeOutcome.resp true code body)).item.progress = 100 ∧
        (mergePhase it (MergeOutcome.resp true code body)).item.status
          = Status.success) := by
  refine ⟨?_, ?_, ?_⟩
  · intro total nW ctu uploaded0 s hr
    induction hr with
    | refl => exact ⟨fun _ => ⟨rfl, rfl⟩, fun p hp => absurd hp (List.not_mem_nil p),
        fun h => absurd rfl h⟩
    | tail _ hstep ih =>
      cases hstep with
      | claim w c hw hc ha => exact ih
      | retire w hw hstop => exact ih
      | complete w c hw =>
        refine ⟨?_, ?_, ?_⟩
        · intro h
          exact absurd h (by simp)
        · intro p hp
          rcases List.mem_append.mp hp with hold | hnew
          · exact ih.2.1 p hold
          · rw [List.mem_singleton.mp hnew]
        · intro _
          show roundPct (_ + 1) total = roundPct (_ ++ [c]).length total
          rw [List.length_append, List.length_cons, List.length_nil]
      | fail w c msg hw => exact ih
      | abortSig => exact ih
  · intro item0 md5v resp it4 ctu h
    unfold checkPhase at h
    by_cases hex : resp.fileExists = true
    · simp only [hex, if_true] at h
      exact Phase1.noConfusion h
    · have hex' : resp.fileExists = false := by
        cases hb : resp.fileExists with
        | true => exact absurd hb hex
        | false => rfl
      simp only [hex', Bool.false_eq_true, if_false] at h
      by_cases hemp :
          (chunksToUploadOf item0.totalChunks resp.uploadedChunks).isEmpty = true
      · simp only [hemp, if_true] at h
        exact Phase1.noConfusion h
      · simp only [hemp, if_false] at h
        have := (Phase1.needUpload.injEq _ _ _ _).mp h.symm
        rw [this.1]
        exact ⟨rfl, rfl⟩
  · intro it code body
    exact ⟨rfl, rfl⟩

/-- Witness for the amended C3: a one-chunk completion notification
reports `progress = roundPct 1 1 = 100`, and a successful merge yields
`success` at 100. -/
theorem progress_formula_at_completions_witness :
    c1s2.progress = roundPct c1s2.uploaded.length 1 ∧
    (mergePhase c7Item (MergeOutcome.resp true 201 ⟨true, some "q"⟩)).item.progress
      = 100 := by
  have h2 : SchedReach 1 (chunksToUploadOf 1 []) (schedInit [] 1) c1s2 :=
    (Relation.ReflTransGen.single
      (SchedStep.claim (schedInit [] 1) 0 0 (by decide) (by decide) rfl)).tail
      (SchedStep.complete c1s1 0 0 (by decide))
  exact ⟨(progress_formula_at_completions.1 1 1 (chunksToUploadOf 1 []) [] c1s2
      h2).2.2 (by decide),
    (progress_formula_at_completions.2.2 c7Item 201 ⟨true, some "q"⟩).1⟩

end LargeFileUpload
